import Mathlib

/-!
The native bridge of the chess engine: `syzygyjni.c` and `pext.c`

A shallow embedding of the two C files and the properties of their
functions.

* `src/native/syzygyjni.c`: three JNI entry points in front of the Fathom
  tablebase prober (`tbInit`, `tbProbeWdl`, `tbProbeRoot`).
* `pext.c`: `pext64`, `pext32` and `has_bmi2`.

C values are natural numbers or integers with the conversions written out:
a `jlong` or `jint` is an `Int`, a `uint64_t` or `unsigned` a `Nat`, a
`jboolean` a `Nat`.  What the C code does to the outside (JNI calls, calls
of the prober) is recorded in a `World`: a log of the calls in the order
they happen, the contents of the Java `int[]` objects and the pending
exception flag.
-/

namespace ChessEngine

set_option linter.unusedVariables false

/-! ## Machine integers -/

/-- The conversion `(uint64_t)x` of a `jlong`: the same 64 bits read unsigned. -/
def toUint64 (x : Int) : Nat := (x % 2 ^ 64).toNat

/-- The conversion `(unsigned)x` of a `jint`: the same 32 bits read unsigned. -/
def toUnsigned (x : Int) : Nat := (x % 2 ^ 32).toNat

/-- The conversion `(jint)n` of an `unsigned`: the low 32 bits read as two's
complement. -/
def toJint (n : Nat) : Int :=
  if n % 2 ^ 32 < 2 ^ 31 then ((n % 2 ^ 32 : Nat) : Int)
  else ((n % 2 ^ 32 : Nat) : Int) - 2 ^ 32

/-! ## The outside world -/

/-- A Java string reference, identified with the string it denotes. -/
abbrev jstring := String

/-- The `const char*` of a string: `none` is `NULL`. -/
abbrev CString := Option String

/-- A reference to a Java `int[]`: `none` is the null reference, `some a`
the array object `a`. -/
abbrev jintArray := Option Nat

/-- The twelve arguments of `tb_probe_wdl` and `tb_probe_root`, in the order
of the call. -/
structure ProbeArgs where
  white : Nat
  black : Nat
  kings : Nat
  queens : Nat
  rooks : Nat
  bishops : Nat
  knights : Nat
  pawns : Nat
  rule50 : Nat
  castling : Nat
  ep : Nat
  turn : Bool
  deriving DecidableEq, Repr

/-- One call that leaves the bridge, with its arguments. -/
inductive Call where
  | GetStringUTFChars (string : jstring)
  | ReleaseStringUTFChars (string : jstring) (utf : CString)
  | SetIntArrayRegion (array : Nat) (start len : Nat) (buf : List Int)
  | tb_init (path : CString)
  | tb_probe_wdl (args : ProbeArgs)
  | tb_probe_root (args : ProbeArgs) (results : Option Nat)
  deriving DecidableEq, Repr

/-- The state outside the bridge. -/
structure World where
  /-- the calls made so far, oldest first -/
  log : List Call
  /-- the contents of every Java `int[]` object -/
  ints : Nat → List Int
  /-- an exception is pending in the calling thread -/
  pending : Bool

/-- What the Java runtime answers: the characters `GetStringUTFChars`
returns for a string (`none` when it returns `NULL`). -/
structure JNIEnv where
  utfChars : jstring → CString

/-- The Fathom prober as far as `syzygyjni.c` uses it.  The header
`fathom/tbprobe.h` is not among the sources, so the three functions and the
two decoders are parameters: `init` is what `tb_init` answers for a
path, `wdl` and `root` what the two probes answer for their arguments,
`getWdl` and `getDtz` what `TB_GET_WDL` and `TB_GET_DTZ` compute. -/
structure Fathom where
  init : CString → Bool
  wdl : ProbeArgs → Nat
  root : ProbeArgs → Option Nat → Nat
  getWdl : Nat → Nat
  getDtz : Nat → Nat

/-- Modelled from the spec: the header `fathom/tbprobe.h` that defines the
constant `TB_RESULT_FAILED` is not among the sources; the failure sentinel is
the status `0xFFFFFFFF`, the value that reads as `-1`. -/
def TB_RESULT_FAILED : Nat := 0xFFFFFFFF

/-- The JNI call `(*env)->GetStringUTFChars(env, string, 0)`: logs the call and
answers the characters the runtime has for the string. -/
def GetStringUTFChars (env : JNIEnv) (string : jstring) (w : World) : CString × World :=
  (env.utfChars string, { w with log := w.log ++ [Call.GetStringUTFChars string] })

/-- The JNI call `(*env)->ReleaseStringUTFChars(env, string, utf)`. -/
def ReleaseStringUTFChars (string : jstring) (utf : CString) (w : World) : World :=
  { w with log := w.log ++ [Call.ReleaseStringUTFChars string utf] }

/-- The JNI call `(*env)->SetIntArrayRegion(env, array, start, len, buf)` on a non-null
array: copies `len` elements of `buf` to the positions from `start` on when
the region lies inside the array, and otherwise copies nothing and leaves an
`ArrayIndexOutOfBoundsException` pending. -/
def SetIntArrayRegion (array : Nat) (start len : Nat) (buf : List Int) (w : World) : World :=
  let old := w.ints array
  let w1 := { w with log := w.log ++ [Call.SetIntArrayRegion array start len buf] }
  if start + len ≤ old.length then
    { w1 with
      ints := fun a =>
        if a = array then old.take start ++ buf.take len ++ old.drop (start + len)
        else w.ints a }
  else { w1 with pending := true }

/-- The call `tb_init(path)` of the prober: a C `bool`. -/
def tb_init (F : Fathom) (path : CString) (w : World) : Bool × World :=
  (F.init path, { w with log := w.log ++ [Call.tb_init path] })

/-- The call `tb_probe_wdl(...)` of the prober: its answer is an `unsigned`. -/
def tb_probe_wdl (F : Fathom) (args : ProbeArgs) (w : World) : Nat × World :=
  (F.wdl args % 2 ^ 32, { w with log := w.log ++ [Call.tb_probe_wdl args] })

/-- The call `tb_probe_root(..., results)` of the prober: its answer is an
`unsigned`. -/
def tb_probe_root (F : Fathom) (args : ProbeArgs) (results : Option Nat) (w : World) :
    Nat × World :=
  (F.root args results % 2 ^ 32, { w with log := w.log ++ [Call.tb_probe_root args results] })

/-- The decoder `TB_GET_WDL(res)` of the header, an `unsigned`. -/
def TB_GET_WDL (F : Fathom) (res : Nat) : Nat := F.getWdl res % 2 ^ 32

/-- The decoder `TB_GET_DTZ(res)` of the header, an `unsigned`. -/
def TB_GET_DTZ (F : Fathom) (res : Nat) : Nat := F.getDtz res % 2 ^ 32

/-! ## `syzygyjni.c` -/

/-- The entry point `tbInit(env, cls, jpath)` (syzygyjni.c, lines 5 to 13):
acquire the characters of `jpath`, call `tb_init`, release the characters,
return `ok`. -/
def Java_max_chess_engine_tb_syzygy_SyzygyNative_tbInit
    (env : JNIEnv) (F : Fathom) (jpath : jstring) (w : World) : Int × World :=
  let (path, w1) := GetStringUTFChars env jpath w
  let (r, w2) := tb_init F path w1
  let ok : Int := if r then 1 else 0
  let w3 := ReleaseStringUTFChars jpath path w2
  (ok, w3)

/-- The entry point `tbProbeWdl` (syzygyjni.c, lines 16 to 30). -/
def Java_max_chess_engine_tb_syzygy_SyzygyNative_tbProbeWdl
    (F : Fathom) (white black kings queens rooks bishops knights pawns : Int)
    (rule50_unused castling_unused epSquare : Int) (whiteToMove : Nat) (w : World) :
    Int × World :=
  let ep : Nat := if 0 ≤ epSquare ∧ epSquare ≤ 63 then toUnsigned epSquare else 0
  let (res, w1) := tb_probe_wdl F
    { white := toUint64 white, black := toUint64 black,
      kings := toUint64 kings, queens := toUint64 queens, rooks := toUint64 rooks,
      bishops := toUint64 bishops, knights := toUint64 knights, pawns := toUint64 pawns,
      rule50 := 0, castling := 0, ep := ep,
      turn := if whiteToMove ≠ 0 then true else false } w
  (toJint res, w1)

/-- The entry point `tbProbeRoot` (syzygyjni.c, lines 33 to 55); the last
argument of `tb_probe_root` is `NULL`. -/
def Java_max_chess_engine_tb_syzygy_SyzygyNative_tbProbeRoot
    (F : Fathom) (white black kings queens rooks bishops knights pawns : Int)
    (rule50 castling_unused epSquare : Int) (whiteToMove : Nat) (jMeta : jintArray)
    (w : World) : Int × World :=
  let ep : Nat := if 0 ≤ epSquare ∧ epSquare ≤ 63 then toUnsigned epSquare else 0
  let (res, w1) := tb_probe_root F
    { white := toUint64 white, black := toUint64 black,
      kings := toUint64 kings, queens := toUint64 queens, rooks := toUint64 rooks,
      bishops := toUint64 bishops, knights := toUint64 knights, pawns := toUint64 pawns,
      rule50 := toUnsigned rule50, castling := 0, ep := ep,
      turn := if whiteToMove ≠ 0 then true else false } none w
  match jMeta with
  | some array =>
    if res ≠ TB_RESULT_FAILED then
      let buf : List Int := [toJint (TB_GET_WDL F res), toJint (TB_GET_DTZ F res)]
      (toJint res, SetIntArrayRegion array 0 2 buf w1)
    else (toJint res, w1)
  | none => (toJint res, w1)

/-! ## `pext.c` -/

/-- Modelled from the spec: the loop behind the intrinsics `_pext_u64` and
`_pext_u32`, which are not among the sources.  `n` positions of the mask
remain, `m` is the position under examination, `k` the next free position of
the destination `dest`; a set position of the mask sends its source bit to
position `k`. -/
def pextLoop (tmp mask : Nat) : Nat → Nat → Nat → Nat → Nat
  | 0, _, _, dest => dest
  | n + 1, m, k, dest =>
    if mask.testBit m then
      pextLoop tmp mask n (m + 1) (k + 1) (dest ||| ((tmp.testBit m).toNat <<< k))
    else pextLoop tmp mask n (m + 1) k dest

/-- Modelled from the spec: the intrinsic `_pext_u64` of `immintrin.h` is
the hardware instruction and not among the sources.  It produces the source
bits at the set positions of the mask, packed into the low-order bits of the
result in ascending order of those positions: the destination starts at 0
and the 64 positions of the mask are visited from the lowest, each set one
sending its source bit to the next free position of the destination. -/
def _pext_u64 (src mask : Nat) : Nat := pextLoop src mask 64 0 0 0

/-- Modelled from the spec: the intrinsic `_pext_u32` of `immintrin.h`, the
same extraction over 32 positions. -/
def _pext_u32 (src mask : Nat) : Nat := pextLoop src mask 32 0 0 0

/-- The function `uint64_t pext64(uint64_t src, uint64_t mask)` of `pext.c`. -/
def pext64 (src mask : Nat) : Nat := _pext_u64 src mask

/-- The function `uint32_t pext32(uint32_t src, uint32_t mask)` of `pext.c`. -/
def pext32 (src mask : Nat) : Nat := _pext_u32 src mask

/-- The four registers a `CPUID` query reports. -/
structure Regs where
  eax : Nat
  ebx : Nat
  ecx : Nat
  edx : Nat
  deriving DecidableEq, Repr

/-- The processor: what the instruction `CPUID` puts in the registers for a
leaf (EAX) and a sub-leaf (ECX). -/
structure Cpu where
  cpuid : Nat → Nat → Regs

/-- The compiler's `__get_cpuid_max(ext, 0)` of `cpuid.h`: the highest leaf
the processor supports in the range of `ext`, which is EAX of the query for
leaf `ext`. -/
def __get_cpuid_max (cpu : Cpu) (ext : Nat) : Nat := (cpu.cpuid ext 0).eax

/-- The compiler's `__get_cpuid_count(leaf, subleaf, &a, &b, &c, &d)` of
`cpuid.h`: `none` when it returns 0 (the leaf is above the highest supported
one, nothing is stored), `some` of the registers when it returns 1. -/
def __get_cpuid_count (cpu : Cpu) (leaf subleaf : Nat) : Option Regs :=
  let ext := leaf &&& 0x80000000
  let maxlevel := __get_cpuid_max cpu ext
  if maxlevel = 0 ∨ maxlevel < leaf then none else some (cpu.cpuid leaf subleaf)

/-- The intrinsic `__cpuidex(cpuInfo, leaf, subleaf)` of `intrin.h`: runs
`CPUID` and stores the four registers. -/
def __cpuidex (cpu : Cpu) (leaf subleaf : Nat) : Regs := cpu.cpuid leaf subleaf

/-- The function `int has_bmi2(void)` of `pext.c`; `msvc` says which branch of
the conditional on `_MSC_VER` was compiled. -/
def has_bmi2 (msvc : Bool) (cpu : Cpu) : Int :=
  if msvc then
    let cpuInfo := __cpuidex cpu 7 0
    if cpuInfo.ebx &&& (1 <<< 8) ≠ 0 then 1 else 0
  else
    match __get_cpuid_count cpu 7 0 with
    | some r => if r.ebx &&& (1 <<< 8) ≠ 0 then 1 else 0
    | none => 0

/-! ## Vocabulary of the properties -/

/-- The positions of the set bits of a 64-bit mask, lowest first. -/
def setBits (mask : Nat) : List Nat := (List.range 64).filter (fun i => mask.testBit i)

/-- The population count of a 64-bit mask. -/
def popcount (mask : Nat) : Nat := (List.range 64).countP (fun i => mask.testBit i)

/-- The source bit at the `i`-th position of a list of positions, `false`
past the end of the list. -/
def bitAt (src : Nat) (l : List Nat) (i : Nat) : Bool :=
  match l[i]? with
  | some p => src.testBit p
  | none => false

/-- A processor for examples: its highest basic leaf is 2, and it answers a
query above that leaf with the data of leaf 2, whose EBX is `0x100`. -/
def lowLeafCpu : Cpu where
  cpuid := fun leaf _ =>
    if leaf = 0 then { eax := 2, ebx := 0x756E6547, ecx := 0x6C65746E, edx := 0x49656E69 }
    else if leaf = 1 then { eax := 0x6D8, ebx := 0, ecx := 0, edx := 0x383FBFF }
    else { eax := 0x2B3B001, ebx := 0x100, ecx := 0, edx := 0x2C04307D }

/-- A processor for examples: its highest basic leaf is 13 and leaf 7
reports BMI2 (and nothing else). -/
def bmi2Cpu : Cpu where
  cpuid := fun leaf _ =>
    if leaf = 0 then { eax := 13, ebx := 0x756E6547, ecx := 0x6C65746E, edx := 0x49656E69 }
    else if leaf = 7 then { eax := 0, ebx := 0x100, ecx := 0, edx := 0 }
    else { eax := 0, ebx := 0, ecx := 0, edx := 0 }

/-- The arguments `tbProbeWdl` computes for `tb_probe_wdl`. -/
def wdlArgs (white black kings queens rooks bishops knights pawns epSquare : Int)
    (whiteToMove : Nat) : ProbeArgs :=
  { white := toUint64 white, black := toUint64 black,
    kings := toUint64 kings, queens := toUint64 queens, rooks := toUint64 rooks,
    bishops := toUint64 bishops, knights := toUint64 knights, pawns := toUint64 pawns,
    rule50 := 0, castling := 0,
    ep := if 0 ≤ epSquare ∧ epSquare ≤ 63 then toUnsigned epSquare else 0,
    turn := if whiteToMove ≠ 0 then true else false }

/-- The arguments `tbProbeRoot` computes for `tb_probe_root`. -/
def rootArgs (white black kings queens rooks bishops knights pawns rule50 epSquare : Int)
    (whiteToMove : Nat) : ProbeArgs :=
  { white := toUint64 white, black := toUint64 black,
    kings := toUint64 kings, queens := toUint64 queens, rooks := toUint64 rooks,
    bishops := toUint64 bishops, knights := toUint64 knights, pawns := toUint64 pawns,
    rule50 := toUnsigned rule50, castling := 0,
    ep := if 0 ≤ epSquare ∧ epSquare ≤ 63 then toUnsigned epSquare else 0,
    turn := if whiteToMove ≠ 0 then true else false }

/-- The status the engine answers to `tbProbeWdl`, as an `unsigned`. -/
def wdlStatus (F : Fathom) (white black kings queens rooks bishops knights pawns
    epSquare : Int) (whiteToMove : Nat) : Nat :=
  F.wdl (wdlArgs white black kings queens rooks bishops knights pawns epSquare whiteToMove)
    % 2 ^ 32

/-- The status the engine answers to `tbProbeRoot`, as an `unsigned`. -/
def rootStatus (F : Fathom) (white black kings queens rooks bishops knights pawns rule50
    epSquare : Int) (whiteToMove : Nat) : Nat :=
  F.root (rootArgs white black kings queens rooks bishops knights pawns rule50 epSquare
    whiteToMove) none % 2 ^ 32

/-- The world after the call of the root probe. -/
def afterRootProbe (white black kings queens rooks bishops knights pawns rule50
    epSquare : Int) (whiteToMove : Nat) (w : World) : World :=
  { w with log := w.log ++ [Call.tb_probe_root (rootArgs white black kings queens rooks
      bishops knights pawns rule50 epSquare whiteToMove) none] }

/-- The number of calls in a log that satisfy `p`. -/
def countCalls (p : Call → Bool) (log : List Call) : Nat := log.countP p

/-- The call acquires the characters of `s`. -/
def Call.acquires (s : jstring) : Call → Bool
  | Call.GetStringUTFChars t => decide (t = s)
  | _ => false

/-- The call releases characters of `s`. -/
def Call.releases (s : jstring) : Call → Bool
  | Call.ReleaseStringUTFChars t _ => decide (t = s)
  | _ => false

/-- The call is a call of `tb_init`. -/
def Call.isInit : Call → Bool
  | Call.tb_init _ => true
  | _ => false

/-- The call writes to a Java array. -/
def Call.isWrite : Call → Bool
  | Call.SetIntArrayRegion _ _ _ _ => true
  | _ => false

/-- A prober for examples: it fails when no king is on the board, and
otherwise packs `white` modulo 5 in the WDL field and `rule50` modulo 100 in
the DTZ field; the fields are laid out as in Fathom (WDL in bits 0 to 3, DTZ
in bits 20 to 31). -/
def toyFathom : Fathom where
  init := fun p => p.isSome
  wdl := fun a => if a.kings = 0 then 0xFFFFFFFF else a.white % 5
  root := fun a _ =>
    if a.kings = 0 then 0xFFFFFFFF else a.white % 5 + (a.rule50 % 100) * 2 ^ 20
  getWdl := fun r => r &&& 0xF
  getDtz := fun r => (r &&& 0xFFF00000) >>> 20

/-- A world with an empty log, one two-slot array (number 0) holding
`[7, 9]`, and nothing pending. -/
def world0 : World where
  log := []
  ints := fun a => if a = 0 then [7, 9] else []
  pending := false

/-! ## The integer conversions -/

theorem toJint_lower (n : Nat) : -2 ^ 31 ≤ toJint n := by
  unfold toJint
  split <;> omega

theorem toJint_upper (n : Nat) : toJint n < 2 ^ 31 := by
  unfold toJint
  split <;> omega

theorem toJint_emod (n : Nat) : toJint n % 2 ^ 32 = ((n % 2 ^ 32 : Nat) : Int) := by
  unfold toJint
  split <;> omega

theorem toUnsigned_toJint (n : Nat) : toUnsigned (toJint n) = n % 2 ^ 32 := by
  unfold toUnsigned
  rw [toJint_emod]
  omega

theorem toJint_eq_iff (a b : Nat) : toJint a = toJint b ↔ a % 2 ^ 32 = b % 2 ^ 32 := by
  constructor
  · intro h
    have h2 := congrArg toUnsigned h
    rwa [toUnsigned_toJint, toUnsigned_toJint] at h2
  · intro h
    unfold toJint
    rw [h]

theorem toJint_mod (n : Nat) : toJint (n % 2 ^ 32) = toJint n := by
  unfold toJint
  rw [Nat.mod_mod]

theorem toJint_failed : toJint TB_RESULT_FAILED = -1 := by
  decide

theorem toUnsigned_of_square (e : Int) (h : 0 ≤ e ∧ e ≤ 63) : (toUnsigned e : Int) = e := by
  unfold toUnsigned
  omega

/-! ## The calls of the prober -/

theorem tbProbeWdl_eq (F : Fathom)
    (white black kings queens rooks bishops knights pawns : Int)
    (rule50 castling epSquare : Int) (whiteToMove : Nat) (w : World) :
    Java_max_chess_engine_tb_syzygy_SyzygyNative_tbProbeWdl F white black kings queens
      rooks bishops knights pawns rule50 castling epSquare whiteToMove w
    = (toJint (wdlStatus F white black kings queens rooks bishops knights pawns epSquare
          whiteToMove),
       { w with log := w.log ++ [Call.tb_probe_wdl (wdlArgs white black kings queens rooks
          bishops knights pawns epSquare whiteToMove)] }) := rfl

theorem tbProbeRoot_null (F : Fathom)
    (white black kings queens rooks bishops knights pawns : Int)
    (rule50 castling epSquare : Int) (whiteToMove : Nat) (w : World) :
    Java_max_chess_engine_tb_syzygy_SyzygyNative_tbProbeRoot F white black kings queens
      rooks bishops knights pawns rule50 castling epSquare whiteToMove none w
    = (toJint (rootStatus F white black kings queens rooks bishops knights pawns rule50
          epSquare whiteToMove),
       afterRootProbe white black kings queens rooks bishops knights pawns rule50 epSquare
          whiteToMove w) := rfl

theorem tbProbeRoot_some (F : Fathom)
    (white black kings queens rooks bishops knights pawns : Int)
    (rule50 castling epSquare : Int) (whiteToMove : Nat) (arr : Nat) (w : World) :
    Java_max_chess_engine_tb_syzygy_SyzygyNative_tbProbeRoot F white black kings queens
      rooks bishops knights pawns rule50 castling epSquare whiteToMove (some arr) w
    = if rootStatus F white black kings queens rooks bishops knights pawns rule50
          epSquare whiteToMove ≠ TB_RESULT_FAILED then
        (toJint (rootStatus F white black kings queens rooks bishops knights pawns rule50
          epSquare whiteToMove),
         SetIntArrayRegion arr 0 2
          [toJint (TB_GET_WDL F (rootStatus F white black kings queens rooks bishops
              knights pawns rule50 epSquare whiteToMove)),
            toJint (TB_GET_DTZ F (rootStatus F white black kings queens rooks bishops
              knights pawns rule50 epSquare whiteToMove))]
          (afterRootProbe white black kings queens rooks bishops knights pawns rule50 epSquare
            whiteToMove w))
      else
        (toJint (rootStatus F white black kings queens rooks bishops knights pawns rule50
          epSquare whiteToMove),
         afterRootProbe white black kings queens rooks bishops knights pawns rule50 epSquare
          whiteToMove w) := rfl

theorem tbProbeRoot_failed (F : Fathom)
    (white black kings queens rooks bishops knights pawns : Int)
    (rule50 castling epSquare : Int) (whiteToMove : Nat) (arr : Nat) (w : World)
    (h : rootStatus F white black kings queens rooks bishops knights pawns rule50
          epSquare whiteToMove = TB_RESULT_FAILED) :
    Java_max_chess_engine_tb_syzygy_SyzygyNative_tbProbeRoot F white black kings queens
      rooks bishops knights pawns rule50 castling epSquare whiteToMove (some arr) w
    = (toJint (rootStatus F white black kings queens rooks bishops knights pawns rule50
          epSquare whiteToMove),
       afterRootProbe white black kings queens rooks bishops knights pawns rule50 epSquare
          whiteToMove w) := by
  rw [tbProbeRoot_some, if_neg (not_not.mpr h)]

theorem tbProbeRoot_ok (F : Fathom)
    (white black kings queens rooks bishops knights pawns : Int)
    (rule50 castling epSquare : Int) (whiteToMove : Nat) (arr : Nat) (w : World)
    (h : rootStatus F white black kings queens rooks bishops knights pawns rule50
          epSquare whiteToMove ≠ TB_RESULT_FAILED) :
    Java_max_chess_engine_tb_syzygy_SyzygyNative_tbProbeRoot F white black kings queens
      rooks bishops knights pawns rule50 castling epSquare whiteToMove (some arr) w
    = (toJint (rootStatus F white black kings queens rooks bishops knights pawns rule50
          epSquare whiteToMove),
       SetIntArrayRegion arr 0 2
         [toJint (TB_GET_WDL F (rootStatus F white black kings queens rooks bishops
            knights pawns rule50 epSquare whiteToMove)),
          toJint (TB_GET_DTZ F (rootStatus F white black kings queens rooks bishops
            knights pawns rule50 epSquare whiteToMove))]
         (afterRootProbe white black kings queens rooks bishops knights pawns rule50 epSquare
          whiteToMove w)) := by
  rw [tbProbeRoot_some, if_pos h]

/-- The log after `SetIntArrayRegion`. -/
theorem SetIntArrayRegion_log (arr start len : Nat) (buf : List Int) (w : World) :
    (SetIntArrayRegion arr start len buf w).log
      = w.log ++ [Call.SetIntArrayRegion arr start len buf] := by
  by_cases h : start + len ≤ (w.ints arr).length <;> simp [SetIntArrayRegion, h]

/-- The calls `tbProbeRoot` adds to the log: the root probe, and after it
the write when the array is non-null and the status is not the sentinel. -/
theorem tbProbeRoot_log (F : Fathom)
    (white black kings queens rooks bishops knights pawns : Int)
    (rule50 castling epSquare : Int) (whiteToMove : Nat) (jMeta : jintArray) (w : World) :
    (Java_max_chess_engine_tb_syzygy_SyzygyNative_tbProbeRoot F white black kings queens
      rooks bishops knights pawns rule50 castling epSquare whiteToMove jMeta w).2.log.drop
        w.log.length
    = Call.tb_probe_root (rootArgs white black kings queens rooks bishops knights pawns
        rule50 epSquare whiteToMove) none ::
      (match jMeta with
       | some arr =>
         if rootStatus F white black kings queens rooks bishops knights pawns rule50
            epSquare whiteToMove ≠ TB_RESULT_FAILED then
           [Call.SetIntArrayRegion arr 0 2
             [toJint (TB_GET_WDL F (rootStatus F white black kings queens rooks bishops
                knights pawns rule50 epSquare whiteToMove)),
              toJint (TB_GET_DTZ F (rootStatus F white black kings queens rooks bishops
                knights pawns rule50 epSquare whiteToMove))]]
         else []
       | none => []) := by
  cases jMeta with
  | none => rw [tbProbeRoot_null]; simp [afterRootProbe]
  | some arr =>
    by_cases h : rootStatus F white black kings queens rooks bishops knights pawns rule50
          epSquare whiteToMove = TB_RESULT_FAILED
    · rw [tbProbeRoot_failed _ _ _ _ _ _ _ _ _ _ _ _ _ _ _ h]; simp [afterRootProbe, h]
    · rw [tbProbeRoot_ok _ _ _ _ _ _ _ _ _ _ _ _ _ _ _ h]
      simp [SetIntArrayRegion_log, afterRootProbe, h]

/-- The status `tbProbeRoot` returns. -/
theorem tbProbeRoot_ret (F : Fathom)
    (white black kings queens rooks bishops knights pawns : Int)
    (rule50 castling epSquare : Int) (whiteToMove : Nat) (jMeta : jintArray) (w : World) :
    (Java_max_chess_engine_tb_syzygy_SyzygyNative_tbProbeRoot F white black kings queens
      rooks bishops knights pawns rule50 castling epSquare whiteToMove jMeta w).1
    = toJint (rootStatus F white black kings queens rooks bishops knights pawns
        rule50 epSquare whiteToMove) := by
  cases jMeta with
  | none => rw [tbProbeRoot_null]
  | some arr =>
    by_cases h : rootStatus F white black kings queens rooks bishops knights pawns rule50
          epSquare whiteToMove = TB_RESULT_FAILED
    · rw [tbProbeRoot_failed _ _ _ _ _ _ _ _ _ _ _ _ _ _ _ h]
    · rw [tbProbeRoot_ok _ _ _ _ _ _ _ _ _ _ _ _ _ _ _ h]

/-! ## `tbInit` -/

/-- C9: for every path string, every answer of the runtime for its
characters and every answer of the prober, `tbInit` adds exactly three
calls to the log, in this order: it acquires the characters of `jpath`,
calls `tb_init` with what it acquired, and releases those same characters of
`jpath`; so there is one acquisition, one call of `tb_init` and one release,
the release after the initialization.  It returns the answer of `tb_init`
unchanged (1 for true, 0 for false), and touches nothing else. -/
theorem tbInit_acquire_init_release (env : JNIEnv) (F : Fathom) (jpath : jstring) (w : World) :
    (Java_max_chess_engine_tb_syzygy_SyzygyNative_tbInit env F jpath w).2.log
        = w.log ++ [Call.GetStringUTFChars jpath, Call.tb_init (env.utfChars jpath),
            Call.ReleaseStringUTFChars jpath (env.utfChars jpath)]
    ∧ countCalls (Call.acquires jpath)
        ((Java_max_chess_engine_tb_syzygy_SyzygyNative_tbInit env F jpath w).2.log.drop
          w.log.length) = 1
    ∧ countCalls Call.isInit
        ((Java_max_chess_engine_tb_syzygy_SyzygyNative_tbInit env F jpath w).2.log.drop
          w.log.length) = 1
    ∧ countCalls (Call.releases jpath)
        ((Java_max_chess_engine_tb_syzygy_SyzygyNative_tbInit env F jpath w).2.log.drop
          w.log.length) = 1
    ∧ (Java_max_chess_engine_tb_syzygy_SyzygyNative_tbInit env F jpath w).1
        = (if F.init (env.utfChars jpath) then 1 else 0)
    ∧ ((Java_max_chess_engine_tb_syzygy_SyzygyNative_tbInit env F jpath w).1 ≠ 0
        ↔ F.init (env.utfChars jpath) = true)
    ∧ (Java_max_chess_engine_tb_syzygy_SyzygyNative_tbInit env F jpath w).2.ints = w.ints
    ∧ (Java_max_chess_engine_tb_syzygy_SyzygyNative_tbInit env F jpath w).2.pending
        = w.pending := by
  simp [Java_max_chess_engine_tb_syzygy_SyzygyNative_tbInit, GetStringUTFChars, tb_init,
    ReleaseStringUTFChars, countCalls, Call.acquires, Call.isInit, Call.releases]

/-! ## `tbProbeWdl` -/

/-- C4: whatever `rule50` and `castling` the caller supplies, the one call
of `tb_probe_wdl` that `tbProbeWdl` makes has 0 for both; two calls that
differ only in those two arguments make the same call of the prober and
return the same status (and leave the same world). -/
theorem tbProbeWdl_rule50_castling_zero (F : Fathom)
    (white black kings queens rooks bishops knights pawns : Int)
    (rule50 castling epSquare : Int) (whiteToMove : Nat) (w : World) :
    (∃ a : ProbeArgs,
      (Java_max_chess_engine_tb_syzygy_SyzygyNative_tbProbeWdl F white black kings queens
        rooks bishops knights pawns rule50 castling epSquare whiteToMove w).2.log
        = w.log ++ [Call.tb_probe_wdl a]
      ∧ a.rule50 = 0 ∧ a.castling = 0)
    ∧ ∀ rule50' castling' : Int,
      Java_max_chess_engine_tb_syzygy_SyzygyNative_tbProbeWdl F white black kings queens
        rooks bishops knights pawns rule50' castling' epSquare whiteToMove w
      = Java_max_chess_engine_tb_syzygy_SyzygyNative_tbProbeWdl F white black kings queens
        rooks bishops knights pawns rule50 castling epSquare whiteToMove w := by
  refine ⟨⟨_, rfl, rfl, rfl⟩, ?_⟩
  intro r c
  rfl

/-! ## Both probes -/

/-- C5: in `tbProbeWdl` and in `tbProbeRoot` the en-passant argument of the
call of the prober is `epSquare` itself when `0 ≤ epSquare ≤ 63` and 0
otherwise; a call with an out-of-range `epSquare` makes the same call of
the prober, returns the same status and leaves the same world as the call
with `epSquare = 0` on otherwise identical inputs. -/
theorem epSquare_normalised (F : Fathom)
    (white black kings queens rooks bishops knights pawns : Int)
    (rule50 castling epSquare : Int) (whiteToMove : Nat) (jMeta : jintArray) (w : World) :
    (∃ a : ProbeArgs,
      ((Java_max_chess_engine_tb_syzygy_SyzygyNative_tbProbeWdl F white black kings queens
        rooks bishops knights pawns rule50 castling epSquare whiteToMove w).2.log.drop
          w.log.length).head? = some (Call.tb_probe_wdl a)
      ∧ (a.ep : Int) = if 0 ≤ epSquare ∧ epSquare ≤ 63 then epSquare else 0)
    ∧ (∃ a : ProbeArgs,
      ((Java_max_chess_engine_tb_syzygy_SyzygyNative_tbProbeRoot F white black kings queens
        rooks bishops knights pawns rule50 castling epSquare whiteToMove jMeta w).2.log.drop
          w.log.length).head? = some (Call.tb_probe_root a none)
      ∧ (a.ep : Int) = if 0 ≤ epSquare ∧ epSquare ≤ 63 then epSquare else 0)
    ∧ (¬ (0 ≤ epSquare ∧ epSquare ≤ 63) →
      Java_max_chess_engine_tb_syzygy_SyzygyNative_tbProbeWdl F white black kings queens
        rooks bishops knights pawns rule50 castling epSquare whiteToMove w
      = Java_max_chess_engine_tb_syzygy_SyzygyNative_tbProbeWdl F white black kings queens
        rooks bishops knights pawns rule50 castling 0 whiteToMove w
      ∧ Java_max_chess_engine_tb_syzygy_SyzygyNative_tbProbeRoot F white black kings queens
        rooks bishops knights pawns rule50 castling epSquare whiteToMove jMeta w
      = Java_max_chess_engine_tb_syzygy_SyzygyNative_tbProbeRoot F white black kings queens
        rooks bishops knights pawns rule50 castling 0 whiteToMove jMeta w) := by
  have hep : ((if 0 ≤ epSquare ∧ epSquare ≤ 63 then toUnsigned epSquare else 0 : Nat) : Int)
      = if 0 ≤ epSquare ∧ epSquare ≤ 63 then epSquare else 0 := by
    by_cases h : 0 ≤ epSquare ∧ epSquare ≤ 63
    · rw [if_pos h, if_pos h]
      exact toUnsigned_of_square epSquare h
    · rw [if_neg h, if_neg h]
      rfl
  refine ⟨⟨wdlArgs white black kings queens rooks bishops knights pawns epSquare whiteToMove,
      ?_, hep⟩,
    ⟨rootArgs white black kings queens rooks bishops knights pawns rule50 epSquare whiteToMove,
      ?_, hep⟩, ?_⟩
  · rw [tbProbeWdl_eq]
    simp
  · rw [tbProbeRoot_log]
    rfl
  · intro h
    simp [Java_max_chess_engine_tb_syzygy_SyzygyNative_tbProbeWdl,
      Java_max_chess_engine_tb_syzygy_SyzygyNative_tbProbeRoot, h, toUnsigned]

/-- C6: `tbProbeWdl` and `tbProbeRoot` return the 32-bit status the prober
answers to the call they make, with the same bit pattern: the returned
`jint` lies in the signed 32-bit range and equals the status modulo `2^32`;
for `tbProbeRoot` this holds for a null and for a non-null array, for a
failed and for a successful probe.  The returned value is the failure
sentinel read as a `jint`, which is `-1`, exactly when the status is the
failure sentinel `0xFFFFFFFF`. -/
theorem status_returned_unchanged (F : Fathom)
    (white black kings queens rooks bishops knights pawns : Int)
    (rule50 castling epSquare : Int) (whiteToMove : Nat) (jMeta : jintArray) (w : World) :
    (∃ a : ProbeArgs,
      ((Java_max_chess_engine_tb_syzygy_SyzygyNative_tbProbeWdl F white black kings queens
        rooks bishops knights pawns rule50 castling epSquare whiteToMove w).2.log.drop
          w.log.length).head? = some (Call.tb_probe_wdl a)
      ∧ (Java_max_chess_engine_tb_syzygy_SyzygyNative_tbProbeWdl F white black kings queens
          rooks bishops knights pawns rule50 castling epSquare whiteToMove w).1 % 2 ^ 32
        = ((F.wdl a % 2 ^ 32 : Nat) : Int)
      ∧ -2 ^ 31 ≤ (Java_max_chess_engine_tb_syzygy_SyzygyNative_tbProbeWdl F white black kings
          queens rooks bishops knights pawns rule50 castling epSquare whiteToMove w).1
      ∧ (Java_max_chess_engine_tb_syzygy_SyzygyNative_tbProbeWdl F white black kings
          queens rooks bishops knights pawns rule50 castling epSquare whiteToMove w).1 < 2 ^ 31
      ∧ ((Java_max_chess_engine_tb_syzygy_SyzygyNative_tbProbeWdl F white black kings
          queens rooks bishops knights pawns rule50 castling epSquare whiteToMove w).1 = -1
        ↔ F.wdl a % 2 ^ 32 = TB_RESULT_FAILED))
    ∧ (∃ a : ProbeArgs,
      ((Java_max_chess_engine_tb_syzygy_SyzygyNative_tbProbeRoot F white black kings queens
        rooks bishops knights pawns rule50 castling epSquare whiteToMove jMeta w).2.log.drop
          w.log.length).head? = some (Call.tb_probe_root a none)
      ∧ (Java_max_chess_engine_tb_syzygy_SyzygyNative_tbProbeRoot F white black kings queens
          rooks bishops knights pawns rule50 castling epSquare whiteToMove jMeta w).1 % 2 ^ 32
        = ((F.root a none % 2 ^ 32 : Nat) : Int)
      ∧ -2 ^ 31 ≤ (Java_max_chess_engine_tb_syzygy_SyzygyNative_tbProbeRoot F white black kings
          queens rooks bishops knights pawns rule50 castling epSquare whiteToMove jMeta w).1
      ∧ (Java_max_chess_engine_tb_syzygy_SyzygyNative_tbProbeRoot F white black kings
          queens rooks bishops knights pawns rule50 castling epSquare whiteToMove jMeta w).1
        < 2 ^ 31
      ∧ ((Java_max_chess_engine_tb_syzygy_SyzygyNative_tbProbeRoot F white black kings
          queens rooks bishops knights pawns rule50 castling epSquare whiteToMove jMeta w).1 = -1
        ↔ F.root a none % 2 ^ 32 = TB_RESULT_FAILED))
    ∧ toJint TB_RESULT_FAILED = -1 ∧ TB_RESULT_FAILED = 0xFFFFFFFF := by
  have key : ∀ n : Nat, toJint n = -1 ↔ n % 2 ^ 32 = TB_RESULT_FAILED := by
    intro n
    rw [← toJint_failed, toJint_eq_iff]
    rfl
  refine ⟨⟨wdlArgs white black kings queens rooks bishops knights pawns epSquare whiteToMove,
      ?_, ?_, ?_, ?_, ?_⟩,
    ⟨rootArgs white black kings queens rooks bishops knights pawns rule50 epSquare whiteToMove,
      ?_, ?_, ?_, ?_, ?_⟩, toJint_failed, rfl⟩
  · rw [tbProbeWdl_eq]
    simp
  · rw [tbProbeWdl_eq]
    simp only [wdlStatus, toJint_mod]
    exact toJint_emod _
  · rw [tbProbeWdl_eq]
    exact toJint_lower _
  · rw [tbProbeWdl_eq]
    exact toJint_upper _
  · rw [tbProbeWdl_eq]
    simp only [wdlStatus, toJint_mod]
    exact key _
  · rw [tbProbeRoot_log]
    rfl
  · rw [tbProbeRoot_ret]
    simp only [rootStatus, toJint_mod]
    exact toJint_emod _
  · rw [tbProbeRoot_ret]
    exact toJint_lower _
  · rw [tbProbeRoot_ret]
    exact toJint_upper _
  · rw [tbProbeRoot_ret]
    simp only [rootStatus, toJint_mod]
    exact key _

/-- C7: for every eight 64-bit values, whether or not they satisfy the
position invariant, `tbProbeWdl` and `tbProbeRoot` always make their call of
the prober, its first eight arguments are the eight values in the order
white, black, kings, queens, rooks, bishops, knights, pawns with their bit
patterns unchanged (the `jlong` read as `uint64_t`), and the status returned
is what the prober answers to that call. -/
theorem bitboards_forwarded (F : Fathom)
    (white black kings queens rooks bishops knights pawns : Int)
    (rule50 castling epSquare : Int) (whiteToMove : Nat) (jMeta : jintArray) (w : World) :
    (∃ a : ProbeArgs,
      (Java_max_chess_engine_tb_syzygy_SyzygyNative_tbProbeWdl F white black kings queens
        rooks bishops knights pawns rule50 castling epSquare whiteToMove w).2.log
        = w.log ++ [Call.tb_probe_wdl a]
      ∧ a.white = toUint64 white ∧ a.black = toUint64 black ∧ a.kings = toUint64 kings
      ∧ a.queens = toUint64 queens ∧ a.rooks = toUint64 rooks ∧ a.bishops = toUint64 bishops
      ∧ a.knights = toUint64 knights ∧ a.pawns = toUint64 pawns
      ∧ (Java_max_chess_engine_tb_syzygy_SyzygyNative_tbProbeWdl F white black kings queens
          rooks bishops knights pawns rule50 castling epSquare whiteToMove w).1
        = toJint (F.wdl a))
    ∧ (∃ a : ProbeArgs,
      ((Java_max_chess_engine_tb_syzygy_SyzygyNative_tbProbeRoot F white black kings queens
        rooks bishops knights pawns rule50 castling epSquare whiteToMove jMeta w).2.log.drop
          w.log.length).head? = some (Call.tb_probe_root a none)
      ∧ a.white = toUint64 white ∧ a.black = toUint64 black ∧ a.kings = toUint64 kings
      ∧ a.queens = toUint64 queens ∧ a.rooks = toUint64 rooks ∧ a.bishops = toUint64 bishops
      ∧ a.knights = toUint64 knights ∧ a.pawns = toUint64 pawns
      ∧ (Java_max_chess_engine_tb_syzygy_SyzygyNative_tbProbeRoot F white black kings queens
          rooks bishops knights pawns rule50 castling epSquare whiteToMove jMeta w).1
        = toJint (F.root a none))
    ∧ (∀ x : Int, ((toUint64 x : Nat) : Int) = x % 2 ^ 64) := by
  refine ⟨⟨wdlArgs white black kings queens rooks bishops knights pawns epSquare whiteToMove,
      ?_, rfl, rfl, rfl, rfl, rfl, rfl, rfl, rfl, ?_⟩,
    ⟨rootArgs white black kings queens rooks bishops knights pawns rule50 epSquare whiteToMove,
      ?_, rfl, rfl, rfl, rfl, rfl, rfl, rfl, rfl, ?_⟩, ?_⟩
  · rw [tbProbeWdl_eq]
  · rw [tbProbeWdl_eq]
    exact toJint_mod _
  · rw [tbProbeRoot_log]
    rfl
  · rw [tbProbeRoot_ret]
    exact toJint_mod _
  · intro x
    unfold toUint64
    omega

/-! ## `tbProbeRoot` -/

theorem rootStatus_lt (F : Fathom)
    (white black kings queens rooks bishops knights pawns rule50 epSquare : Int)
    (whiteToMove : Nat) :
    rootStatus F white black kings queens rooks bishops knights pawns rule50 epSquare
      whiteToMove < 2 ^ 32 :=
  Nat.mod_lt _ (by decide)

/-- The returned `jint` is the sentinel exactly when the status is. -/
theorem tbProbeRoot_ret_failed_iff (F : Fathom)
    (white black kings queens rooks bishops knights pawns : Int)
    (rule50 castling epSquare : Int) (whiteToMove : Nat) (jMeta : jintArray) (w : World) :
    (Java_max_chess_engine_tb_syzygy_SyzygyNative_tbProbeRoot F white black kings queens
      rooks bishops knights pawns rule50 castling epSquare whiteToMove jMeta w).1
      = toJint TB_RESULT_FAILED
    ↔ rootStatus F white black kings queens rooks bishops knights pawns rule50 epSquare
      whiteToMove = TB_RESULT_FAILED := by
  rw [tbProbeRoot_ret, toJint_eq_iff,
    Nat.mod_eq_of_lt (rootStatus_lt F white black kings queens rooks bishops knights pawns
      rule50 epSquare whiteToMove)]
  rfl

/-- C1: for every position, every status the root probe answers and every
`jMeta` that is null or a record of at least two slots (the spec's record
has two).  The first call `tbProbeRoot` makes is the root probe, and the
status meant below is the prober's answer to that call, which is also what
is returned.  `tbProbeRoot` performs a write (a call of `SetIntArrayRegion`)
exactly when `jMeta` is non-null and that status is not the failure
sentinel, and it performs at most one.  When it writes, the write is on
`jMeta` and stores `[TB_GET_WDL, TB_GET_DTZ]` of the status in slots 0 and 1:
afterwards the record holds these two values followed by its old further
slots, no other array has changed and no exception is pending that was not
before.  When `jMeta` is null or the status is the failure sentinel, the
only call is the root probe, and the contents of every array (so those of
the record) and the pending-exception flag are exactly what they were. -/
theorem tbProbeRoot_writes_iff (F : Fathom)
    (white black kings queens rooks bishops knights pawns : Int)
    (rule50 castling epSquare : Int) (whiteToMove : Nat) (jMeta : jintArray) (w : World)
    (hrec : ∀ arr, jMeta = some arr → 2 ≤ (w.ints arr).length) :
    ((Java_max_chess_engine_tb_syzygy_SyzygyNative_tbProbeRoot F white black kings queens
        rooks bishops knights pawns rule50 castling epSquare whiteToMove jMeta w).2.log.drop w.log.length).head?
      = some (Call.tb_probe_root (rootArgs white black kings queens rooks bishops knights pawns rule50 epSquare
        whiteToMove) none)
    ∧ (Java_max_chess_engine_tb_syzygy_SyzygyNative_tbProbeRoot F white black kings queens
        rooks bishops knights pawns rule50 castling epSquare whiteToMove jMeta w).1
      = toJint (F.root (rootArgs white black kings queens rooks bishops knights pawns rule50 epSquare
        whiteToMove) none)
    ∧ rootStatus F white black kings queens rooks bishops knights pawns rule50 epSquare
        whiteToMove
      = F.root (rootArgs white black kings queens rooks bishops knights pawns rule50 epSquare
        whiteToMove) none % 2 ^ 32
    ∧ ((∃ c ∈ (Java_max_chess_engine_tb_syzygy_SyzygyNative_tbProbeRoot F white black kings queens
        rooks bishops knights pawns rule50 castling epSquare whiteToMove jMeta w).2.log.drop w.log.length, Call.isWrite c = true)
      ↔ (jMeta ≠ none
        ∧ rootStatus F white black kings queens rooks bishops knights pawns rule50 epSquare
        whiteToMove ≠ TB_RESULT_FAILED))
    ∧ ((Java_max_chess_engine_tb_syzygy_SyzygyNative_tbProbeRoot F white black kings queens
        rooks bishops knights pawns rule50 castling epSquare whiteToMove jMeta w).1 = toJint TB_RESULT_FAILED
      ↔ rootStatus F white black kings queens rooks bishops knights pawns rule50 epSquare
        whiteToMove = TB_RESULT_FAILED)
    ∧ countCalls Call.isWrite
        ((Java_max_chess_engine_tb_syzygy_SyzygyNative_tbProbeRoot F white black kings queens
        rooks bishops knights pawns rule50 castling epSquare whiteToMove jMeta w).2.log.drop w.log.length) ≤ 1
    ∧ (∀ arr, jMeta = some arr →
        rootStatus F white black kings queens rooks bishops knights pawns rule50 epSquare
        whiteToMove ≠ TB_RESULT_FAILED →
        (Java_max_chess_engine_tb_syzygy_SyzygyNative_tbProbeRoot F white black kings queens
        rooks bishops knights pawns rule50 castling epSquare whiteToMove jMeta w).2.log.drop w.log.length
          = [Call.tb_probe_root (rootArgs white black kings queens rooks bishops knights pawns rule50 epSquare
        whiteToMove) none,
             Call.SetIntArrayRegion arr 0 2
              [toJint (TB_GET_WDL F (rootStatus F white black kings queens rooks bishops knights pawns rule50 epSquare
        whiteToMove)),
               toJint (TB_GET_DTZ F (rootStatus F white black kings queens rooks bishops knights pawns rule50 epSquare
        whiteToMove))]]
        ∧ (Java_max_chess_engine_tb_syzygy_SyzygyNative_tbProbeRoot F white black kings queens
        rooks bishops knights pawns rule50 castling epSquare whiteToMove jMeta w).2.ints arr
          = toJint (TB_GET_WDL F (rootStatus F white black kings queens rooks bishops knights pawns rule50 epSquare
        whiteToMove))
            :: toJint (TB_GET_DTZ F (rootStatus F white black kings queens rooks bishops knights pawns rule50 epSquare
        whiteToMove))
            :: (w.ints arr).drop 2
        ∧ (∀ b, b ≠ arr →
          (Java_max_chess_engine_tb_syzygy_SyzygyNative_tbProbeRoot F white black kings queens
        rooks bishops knights pawns rule50 castling epSquare whiteToMove jMeta w).2.ints b = w.ints b)
        ∧ (Java_max_chess_engine_tb_syzygy_SyzygyNative_tbProbeRoot F white black kings queens
        rooks bishops knights pawns rule50 castling epSquare whiteToMove jMeta w).2.pending = w.pending)
    ∧ ((jMeta = none
        ∨ rootStatus F white black kings queens rooks bishops knights pawns rule50 epSquare
        whiteToMove = TB_RESULT_FAILED) →
      (Java_max_chess_engine_tb_syzygy_SyzygyNative_tbProbeRoot F white black kings queens
        rooks bishops knights pawns rule50 castling epSquare whiteToMove jMeta w).2.log
        = w.log ++ [Call.tb_probe_root (rootArgs white black kings queens rooks bishops knights pawns rule50 epSquare
        whiteToMove) none]
      ∧ (Java_max_chess_engine_tb_syzygy_SyzygyNative_tbProbeRoot F white black kings queens
        rooks bishops knights pawns rule50 castling epSquare whiteToMove jMeta w).2.ints = w.ints
      ∧ (Java_max_chess_engine_tb_syzygy_SyzygyNative_tbProbeRoot F white black kings queens
        rooks bishops knights pawns rule50 castling epSquare whiteToMove jMeta w).2.pending = w.pending) := by
  refine ⟨?_, ?_, rfl, ?_, ?_, ?_, ?_, ?_⟩
  · rw [tbProbeRoot_log]
    rfl
  · rw [tbProbeRoot_ret]
    exact toJint_mod _
  · rw [tbProbeRoot_log]
    cases jMeta with
    | none => simp [Call.isWrite]
    | some arr =>
      by_cases h : rootStatus F white black kings queens rooks bishops knights pawns rule50
          epSquare whiteToMove = TB_RESULT_FAILED
      · simp [Call.isWrite, h]
      · simp [Call.isWrite, h]
  · exact tbProbeRoot_ret_failed_iff F white black kings queens rooks bishops knights pawns
      rule50 castling epSquare whiteToMove jMeta w
  · rw [tbProbeRoot_log]
    cases jMeta with
    | none => simp [Call.isWrite, countCalls]
    | some arr =>
      by_cases h : rootStatus F white black kings queens rooks bishops knights pawns rule50
          epSquare whiteToMove = TB_RESULT_FAILED
      · simp [Call.isWrite, countCalls, h]
      · simp [Call.isWrite, countCalls, h]
  · intro arr harr h
    subst harr
    have hl : 0 + 2 ≤ ((afterRootProbe white black kings queens rooks bishops knights pawns
        rule50 epSquare whiteToMove w).ints arr).length := by
      simpa [afterRootProbe] using hrec arr rfl
    refine ⟨?_, ?_⟩
    · rw [tbProbeRoot_log]
      simp [h]
    · rw [tbProbeRoot_ok _ _ _ _ _ _ _ _ _ _ _ _ _ _ _ h]
      unfold SetIntArrayRegion
      simp only [hl, if_true]
      refine ⟨?_, ?_, ?_⟩
      · simp [afterRootProbe]
      · intro b hb
        simp [afterRootProbe, hb]
      · simp [afterRootProbe]
  · intro h
    cases jMeta with
    | none =>
      rw [tbProbeRoot_null]
      simp [afterRootProbe]
    | some arr =>
      have h2 : rootStatus F white black kings queens rooks bishops knights pawns rule50
          epSquare whiteToMove = TB_RESULT_FAILED := by
        rcases h with h | h
        · exact absurd h (by simp)
        · exact h
      rw [tbProbeRoot_failed _ _ _ _ _ _ _ _ _ _ _ _ _ _ _ h2]
      simp [afterRootProbe]

/-- Witness of C1: with the two-slot record `[7, 9]` of `world0`, the example
prober fails on a board without kings and the record and every other array
stay as they were; on king and pawn against king (`white = 9`, half-move
clock 12) the record becomes `[4, 12]`. -/
theorem tbProbeRoot_writes_iff_witness :
    (Java_max_chess_engine_tb_syzygy_SyzygyNative_tbProbeRoot toyFathom 9 16 0 0 0 0 0 8
        12 0 (-1) 1 (some 0) world0).2.ints = world0.ints
    ∧ (Java_max_chess_engine_tb_syzygy_SyzygyNative_tbProbeRoot toyFathom 9 16 0 0 0 0 0 8
        12 0 (-1) 1 (some 0) world0).1 = -1
    ∧ (Java_max_chess_engine_tb_syzygy_SyzygyNative_tbProbeRoot toyFathom 9 16 17 0 0 0 0 8
        12 0 (-1) 1 (some 0) world0).2.ints 0
      = toJint (TB_GET_WDL toyFathom (rootStatus toyFathom 9 16 17 0 0 0 0 8 12 (-1) 1))
        :: toJint (TB_GET_DTZ toyFathom (rootStatus toyFathom 9 16 17 0 0 0 0 8 12 (-1) 1))
        :: (world0.ints 0).drop 2
    ∧ (Java_max_chess_engine_tb_syzygy_SyzygyNative_tbProbeRoot toyFathom 9 16 17 0 0 0 0 8
        12 0 (-1) 1 (some 0) world0).2.ints 0 = [4, 12] :=
  ⟨((tbProbeRoot_writes_iff toyFathom 9 16 0 0 0 0 0 8 12 0 (-1) 1 (some 0) world0
      (fun arr h => by cases h; decide)).2.2.2.2.2.2.2 (Or.inr (by decide))).2.1,
    by decide,
    ((tbProbeRoot_writes_iff toyFathom 9 16 17 0 0 0 0 8 12 0 (-1) 1 (some 0) world0
      (fun arr h => by cases h; decide)).2.2.2.2.2.2.1 0 rfl (by decide)).2.1,
    by decide⟩

/-- C2: when the array `arr` passed as `jMeta` has at least two slots and
the returned status is not the failure sentinel, then after `tbProbeRoot`
slot 0 of `arr` is `TB_GET_WDL` and slot 1 is `TB_GET_DTZ` of the status
that is returned (read back as an `unsigned`), in this order, and the
further slots keep their values; a two-slot record holds exactly
`[wdl, dtz]`.  No other array changes and no exception is raised. -/
theorem tbProbeRoot_meta (F : Fathom)
    (white black kings queens rooks bishops knights pawns : Int)
    (rule50 castling epSquare : Int) (whiteToMove : Nat) (arr : Nat) (w : World)
    (hlen : 2 ≤ (w.ints arr).length)
    (hok : (Java_max_chess_engine_tb_syzygy_SyzygyNative_tbProbeRoot F white black kings
      queens rooks bishops knights pawns rule50 castling epSquare whiteToMove (some arr) w).1
      ≠ toJint TB_RESULT_FAILED) :
    (Java_max_chess_engine_tb_syzygy_SyzygyNative_tbProbeRoot F white black kings
      queens rooks bishops knights pawns rule50 castling epSquare whiteToMove (some arr)
      w).2.ints arr
      = toJint (TB_GET_WDL F (toUnsigned
          (Java_max_chess_engine_tb_syzygy_SyzygyNative_tbProbeRoot F white black kings
            queens rooks bishops knights pawns rule50 castling epSquare whiteToMove (some arr)
            w).1))
        :: toJint (TB_GET_DTZ F (toUnsigned
          (Java_max_chess_engine_tb_syzygy_SyzygyNative_tbProbeRoot F white black kings
            queens rooks bishops knights pawns rule50 castling epSquare whiteToMove (some arr)
            w).1))
        :: (w.ints arr).drop 2
    ∧ ((w.ints arr).length = 2 →
      (Java_max_chess_engine_tb_syzygy_SyzygyNative_tbProbeRoot F white black kings
        queens rooks bishops knights pawns rule50 castling epSquare whiteToMove (some arr)
        w).2.ints arr
      = [toJint (TB_GET_WDL F (toUnsigned
          (Java_max_chess_engine_tb_syzygy_SyzygyNative_tbProbeRoot F white black kings
            queens rooks bishops knights pawns rule50 castling epSquare whiteToMove (some arr)
            w).1)),
         toJint (TB_GET_DTZ F (toUnsigned
          (Java_max_chess_engine_tb_syzygy_SyzygyNative_tbProbeRoot F white black kings
            queens rooks bishops knights pawns rule50 castling epSquare whiteToMove (some arr)
            w).1))])
    ∧ (∀ b, b ≠ arr →
      (Java_max_chess_engine_tb_syzygy_SyzygyNative_tbProbeRoot F white black kings
        queens rooks bishops knights pawns rule50 castling epSquare whiteToMove (some arr)
        w).2.ints b = w.ints b)
    ∧ (Java_max_chess_engine_tb_syzygy_SyzygyNative_tbProbeRoot F white black kings
        queens rooks bishops knights pawns rule50 castling epSquare whiteToMove (some arr)
        w).2.pending = w.pending := by
  have h : rootStatus F white black kings queens rooks bishops knights pawns rule50
      epSquare whiteToMove ≠ TB_RESULT_FAILED :=
    fun e => hok ((tbProbeRoot_ret_failed_iff F white black kings queens rooks bishops knights
      pawns rule50 castling epSquare whiteToMove (some arr) w).mpr e)
  have hu : toUnsigned (toJint (rootStatus F white black kings queens rooks bishops knights
      pawns rule50 epSquare whiteToMove))
      = rootStatus F white black kings queens rooks bishops knights pawns rule50 epSquare
        whiteToMove := by
    rw [toUnsigned_toJint]
    exact Nat.mod_eq_of_lt (rootStatus_lt F white black kings queens rooks bishops knights
      pawns rule50 epSquare whiteToMove)
  have hl : 0 + 2 ≤ ((afterRootProbe white black kings queens rooks bishops knights pawns
      rule50 epSquare whiteToMove w).ints arr).length := by
    simpa [afterRootProbe] using hlen
  rw [tbProbeRoot_ok _ _ _ _ _ _ _ _ _ _ _ _ _ _ _ h]
  simp only [hu]
  unfold SetIntArrayRegion
  simp only [hl, if_true]
  refine ⟨?_, ?_, ?_, ?_⟩
  · simp [afterRootProbe]
  · intro h2
    simp [afterRootProbe, List.drop_eq_nil_of_le (le_of_eq h2)]
  · intro b hb
    simp [afterRootProbe, hb]
  · simp [afterRootProbe]

/-- Witness of C2: the example prober on king and pawn against king
(`white = 3`, half-move clock 7) fills the two-slot record `[7, 9]` of
`world0` with `[3, 7]`. -/
theorem tbProbeRoot_meta_witness :
    (Java_max_chess_engine_tb_syzygy_SyzygyNative_tbProbeRoot toyFathom 3 16 17 0 0 0 0 2
      7 0 (-1) 1 (some 0) world0).2.ints 0
      = toJint (TB_GET_WDL toyFathom (toUnsigned
          (Java_max_chess_engine_tb_syzygy_SyzygyNative_tbProbeRoot toyFathom 3 16 17 0 0 0 0
            2 7 0 (-1) 1 (some 0) world0).1))
        :: toJint (TB_GET_DTZ toyFathom (toUnsigned
          (Java_max_chess_engine_tb_syzygy_SyzygyNative_tbProbeRoot toyFathom 3 16 17 0 0 0 0
            2 7 0 (-1) 1 (some 0) world0).1))
        :: (world0.ints 0).drop 2
    ∧ (Java_max_chess_engine_tb_syzygy_SyzygyNative_tbProbeRoot toyFathom 3 16 17 0 0 0 0 2
      7 0 (-1) 1 (some 0) world0).2.ints 0 = [3, 7] :=
  ⟨(tbProbeRoot_meta toyFathom 3 16 17 0 0 0 0 2 7 0 (-1) 1 0 world0 (by decide)
      (by decide)).1, by decide⟩

/-- The call of the root probe, for every input: the half-move clock is the
caller's, read unsigned, and the castling mask is 0. -/
theorem tbProbeRoot_probe_args (F : Fathom)
    (white black kings queens rooks bishops knights pawns : Int)
    (rule50 castling epSquare : Int) (whiteToMove : Nat) (jMeta : jintArray) (w : World) :
    ∃ a : ProbeArgs,
      ((Java_max_chess_engine_tb_syzygy_SyzygyNative_tbProbeRoot F white black kings queens
        rooks bishops knights pawns rule50 castling epSquare whiteToMove jMeta w).2.log.drop
          w.log.length).head? = some (Call.tb_probe_root a none)
      ∧ a.rule50 = toUnsigned rule50 ∧ a.castling = 0 := by
  refine ⟨rootArgs white black kings queens rooks bishops knights pawns rule50 epSquare
    whiteToMove, ?_, rfl, rfl⟩
  rw [tbProbeRoot_log]
  rfl

/-- C3, the code at a caller's castling mask of 3 and half-move clock of 7:
the call of the root probe carries the half-move clock 7 and the castling
mask 0. -/
theorem tbProbeRoot_castling_dropped :
    (Java_max_chess_engine_tb_syzygy_SyzygyNative_tbProbeRoot toyFathom 3 16 17 0 0 0 0 2
      7 3 (-1) 1 none world0).2.log
      = [Call.tb_probe_root
          { white := 3, black := 16, kings := 17, queens := 0, rooks := 0, bishops := 0,
            knights := 0, pawns := 2, rule50 := 7, castling := 0, ep := 0, turn := true }
          none] := by
  decide

/-! ## `pext64` -/

theorem bitAt_nil (src i : Nat) : bitAt src [] i = false := by
  simp [bitAt]

theorem bitAt_cons_zero (src p : Nat) (l : List Nat) : bitAt src (p :: l) 0 = src.testBit p := by
  simp [bitAt]

theorem bitAt_cons_succ (src p i : Nat) (l : List Nat) :
    bitAt src (p :: l) (i + 1) = bitAt src l i := by
  simp [bitAt]

theorem pextLoop_testBit (src mask : Nat) :
    ∀ n m k dest j, (pextLoop src mask n m k dest).testBit j
      = (dest.testBit j
        || (decide (k ≤ j)
          && bitAt src ((List.range' m n).filter (fun i => mask.testBit i)) (j - k))) := by
  intro n
  induction n with
  | zero =>
    intro m k dest j
    simp [pextLoop, bitAt_nil]
  | succ n ih =>
    intro m k dest j
    rw [List.range'_succ]
    by_cases hm : mask.testBit m = true
    · rw [pextLoop, if_pos hm, ih, List.filter_cons_of_pos hm, Nat.testBit_or,
        Nat.testBit_shiftLeft, Nat.testBit_bool_to_nat]
      rcases Nat.lt_trichotomy j k with hlt | heq | hgt
      · have h1 : ¬ k ≤ j := by omega
        have h2 : ¬ k + 1 ≤ j := by omega
        have h3 : ¬ j ≥ k := by omega
        simp [h1, h2, h3]
      · subst heq
        simp [bitAt_cons_zero]
      · obtain ⟨d, rfl⟩ : ∃ d, j = k + 1 + d := ⟨j - (k + 1), by omega⟩
        have e1 : k + 1 + d - k = d + 1 := by omega
        have e2 : k + 1 + d - (k + 1) = d := by omega
        have h1 : k ≤ k + 1 + d := by omega
        have h2 : k + 1 ≤ k + 1 + d := by omega
        simp [e1, e2, h1, h2, bitAt_cons_succ]
    · have hm2 : ¬ (mask.testBit m = true) := hm
      rw [pextLoop, if_neg hm, ih, List.filter_cons_of_neg hm2]

theorem pext64_testBit (src mask j : Nat) :
    (pext64 src mask).testBit j = bitAt src (setBits mask) j := by
  unfold pext64 _pext_u64 setBits
  rw [pextLoop_testBit, List.range_eq_range']
  simp

theorem setBits_length (mask : Nat) : (setBits mask).length = popcount mask := by
  unfold setBits popcount
  rw [List.countP_eq_length_filter]

theorem mem_setBits (mask i : Nat) : i ∈ setBits mask ↔ i < 64 ∧ mask.testBit i = true := by
  simp [setBits]

theorem setBits_sorted (mask : Nat) : (setBits mask).Pairwise (fun a b => a < b) := by
  unfold setBits
  exact List.Pairwise.sublist (List.filter_sublist _) (List.pairwise_lt_range 64)

theorem setBits_zero : setBits 0 = [] := by
  simp [setBits]

theorem setBits_ones : setBits (2 ^ 64 - 1) = List.range 64 := by
  unfold setBits
  rw [List.filter_eq_self]
  intro a ha
  rw [Nat.testBit_two_pow_sub_one]
  simpa using ha

/-- C8: for a 64-bit source and any mask, with `setBits mask` the
positions of the set bits of the mask among 0 to 63 in ascending order
(their number is the population count of the mask): bit `k` of
`pext64 src mask`, for `k` below the population count, is the bit of the
source at the `k`-th lowest set position of the mask; the bits at index at
least the population count are zero, so the result is below
`2 ^ popcount mask`; `pext64 src 0 = 0` and `pext64 src (2^64 - 1) = src`. -/
theorem pext64_spec (src mask : Nat) (hs : src < 2 ^ 64) :
    (setBits mask).length = popcount mask
    ∧ (setBits mask).Pairwise (fun a b => a < b)
    ∧ (∀ i, i ∈ setBits mask ↔ i < 64 ∧ mask.testBit i = true)
    ∧ (∀ k (h : k < (setBits mask).length),
        (pext64 src mask).testBit k = src.testBit ((setBits mask).get ⟨k, h⟩))
    ∧ (∀ k, popcount mask ≤ k → (pext64 src mask).testBit k = false)
    ∧ pext64 src mask < 2 ^ popcount mask
    ∧ pext64 src 0 = 0
    ∧ pext64 src (2 ^ 64 - 1) = src := by
  have hhigh : ∀ k, popcount mask ≤ k → (pext64 src mask).testBit k = false := by
    intro k hk
    rw [pext64_testBit, bitAt, List.getElem?_eq_none (by rw [setBits_length]; exact hk)]
  refine ⟨setBits_length mask, setBits_sorted mask, mem_setBits mask, ?_, hhigh,
    Nat.lt_pow_two_of_testBit _ hhigh, ?_, ?_⟩
  · intro k h
    rw [pext64_testBit, bitAt, List.getElem?_eq_getElem h]
    rfl
  · apply Nat.eq_of_testBit_eq
    intro i
    rw [pext64_testBit, setBits_zero, bitAt_nil, Nat.zero_testBit]
  · apply Nat.eq_of_testBit_eq
    intro i
    rw [pext64_testBit, setBits_ones, bitAt]
    by_cases hi : i < 64
    · rw [List.getElem?_eq_getElem (by simpa using hi)]
      simp
    · rw [List.getElem?_eq_none (by simpa using hi)]
      symm
      apply Nat.testBit_lt_two_pow
      exact lt_of_lt_of_le hs (Nat.pow_le_pow_right (by decide) (by omega))

/-- Witness of C8: source `0xB6`, mask `0x5A` (set positions 1, 3, 4, 6)
give `0b0101`. -/
theorem pext64_spec_witness :
    pext64 0xB6 0x5A = 5 ∧ popcount 0x5A = 4 ∧ pext64 0xB6 (2 ^ 64 - 1) = 0xB6 :=
  ⟨by decide, by decide, (pext64_spec 0xB6 0x5A (by decide)).2.2.2.2.2.2.2⟩

/-! ## `has_bmi2` -/

theorem and_bit8 (n : Nat) : n &&& (1 <<< 8) ≠ 0 ↔ n.testBit 8 = true := by
  rw [Nat.one_shiftLeft]
  constructor
  · intro h
    by_contra hb
    apply h
    apply Nat.eq_of_testBit_eq
    intro i
    rw [Nat.testBit_and, Nat.testBit_two_pow, Nat.zero_testBit]
    by_cases hi : 8 = i
    · subst hi
      simp [hb]
    · simp [hi]
  · intro hb h0
    have h1 : (n &&& 2 ^ 8).testBit 8 = true := by
      rw [Nat.testBit_and, hb, Nat.testBit_two_pow_self]
      rfl
    rw [h0, Nat.zero_testBit] at h1
    exact Bool.noConfusion h1

/-- On both branches `has_bmi2` returns 0 or 1, and it is a function of the
answers of the processor: repeated calls agree. -/
theorem has_bmi2_zero_or_one (msvc : Bool) (cpu : Cpu) :
    has_bmi2 msvc cpu = 0 ∨ has_bmi2 msvc cpu = 1 := by
  unfold has_bmi2
  cases msvc with
  | true =>
    simp only [if_true]
    split <;> simp
  | false =>
    simp only [Bool.false_eq_true, if_false]
    split
    · split <;> simp
    · simp

/-- The branch compiled without `_MSC_VER`: `has_bmi2` returns 1 exactly
when `__get_cpuid_count(7, 0, ...)` reports the leaf as supported and bit 8
of the EBX it stores is set. -/
theorem has_bmi2_checked_branch (cpu : Cpu) :
    has_bmi2 false cpu = 1
      ↔ ∃ r, __get_cpuid_count cpu 7 0 = some r ∧ r.ebx.testBit 8 = true := by
  unfold has_bmi2
  simp only [Bool.false_eq_true, if_false]
  cases h : __get_cpuid_count cpu 7 0 with
  | none => simp
  | some r =>
    dsimp only
    by_cases hb : r.ebx &&& (1 <<< 8) ≠ 0
    · rw [if_pos hb]
      simp [(and_bit8 r.ebx).mp hb]
    · have hb2 : ¬ r.ebx.testBit 8 = true := fun e => hb ((and_bit8 r.ebx).mpr e)
      rw [if_neg hb]
      simp [hb2]

/-- On a processor that supports leaf 7 and reports BMI2 there, both
branches return 1. -/
theorem has_bmi2_bmi2Cpu : has_bmi2 false bmi2Cpu = 1 ∧ has_bmi2 true bmi2Cpu = 1 := by
  decide

/-- C10, the code compiled with `_MSC_VER` on a processor whose highest
basic leaf is 2 and whose answer to the query carries bit 8 in EBX: leaf 7
is not supported (`__get_cpuid_count(7, 0, ...)` would return 0, and the
other branch returns 0), and `has_bmi2` returns 1. -/
theorem has_bmi2_msvc_unsupported_leaf :
    __get_cpuid_max lowLeafCpu 0 = 2
    ∧ __get_cpuid_count lowLeafCpu 7 0 = none
    ∧ has_bmi2 false lowLeafCpu = 0
    ∧ has_bmi2 true lowLeafCpu = 1 := by
  decide

end ChessEngine
